import Mathlib

/-!
# Verification of the fast binary tree-serializer (`src/backend/nodes/outfast.c`)

This file gives a shallow embedding of the serialization engine of
`outfast.c` and proves the specified properties about it.

Modelling conventions:

* The output buffer (`StringInfo`) is a `List Nat` of byte values; every
  `appendBinaryStringInfo` call becomes a list append, in the same order as
  the C code performs it.
* The host is the LP64 little-endian platform the system runs on:
  `sizeof(int) = 4`, `sizeof(int16) = 2`, `sizeof(long) = sizeof(uint64) =
  sizeof(Size) = sizeof(Datum) = sizeof(double) = 8`, `sizeof(Oid) =
  sizeof(bitmapword) = 4`.  A multi-byte value is emitted as its
  little-endian in-memory image; signed values are emitted as their
  two's-complement image (`uimg`).
* `double` fields (`Cost`, `plan_rows`) are copied verbatim by the encoder,
  so such a field is modelled directly by its 8-byte object image
  (a `Nat < 2^64`); the encoder never interprets it numerically.
* `elog(ERROR, ...)` aborts the whole encode without producing a buffer:
  encoders return `Except String`, and an error propagates outward through
  every caller, exactly like the C non-local exit.
* `elog(WARNING, ...)` does not abort; the model counts emitted warnings.
* The two process-wide mode variables `print_variable_fields` and
  `range_table` (outfast.c:165-167) are a `Globals` value threaded through
  every encoder call (read and returned), so that statements about them
  ("the encoder never changes them") are provable rather than built in.
* The node family below embeds the variants of `outfast.c` that the verified
  properties touch: the three list kinds, `Value` leaves, `A_Const`, `Const`,
  `Flow`, `Constraint`, and `Agg` (a representative plan-node shape whose
  encoder calls the shared `_outPlanInfo` helper, outfast.c:266-309).
  `Node.unknownTag t` stands for an object whose runtime `nodeTag` value `t`
  is matched by no case of `_outNode`'s dispatch switch (outfast.c:1144-1963).
-/

namespace Outfast

/-- Little-endian byte image of `v` in `w` bytes (byte `i` is `v / 256^i % 256`). -/
def bytesLE (w v : Nat) : List Nat := (List.range w).map fun i => v / 256 ^ i % 256

/-- Two's-complement image of the signed value `v` stored in `w` bytes. -/
def uimg (w : Nat) (v : Int) : Nat := (v % (2 ^ (8 * w))).toNat

/-- outfast.c:59-60, `WRITE_INT_FIELD`: the 4 bytes of a C `int`. -/
def WRITE_INT_FIELD (v : Int) : List Nat := bytesLE 4 (uimg 4 v)

/-- outfast.c:63-64, `WRITE_INT16_FIELD`: the 2 bytes of a C `int16`. -/
def WRITE_INT16_FIELD (v : Int) : List Nat := bytesLE 2 (uimg 2 v)

/-- outfast.c:67-68, `WRITE_UINT_FIELD`: 4 bytes of an unsigned int. -/
def WRITE_UINT_FIELD (v : Nat) : List Nat := bytesLE 4 (v % 2 ^ 32)

/-- outfast.c:71-72, `WRITE_UINT64_FIELD`: 8 bytes of a `uint64`. -/
def WRITE_UINT64_FIELD (v : Nat) : List Nat := bytesLE 8 (v % 2 ^ 64)

/-- outfast.c:75-76, `WRITE_OID_FIELD`: 4 bytes of an `Oid`. -/
def WRITE_OID_FIELD (v : Nat) : List Nat := bytesLE 4 (v % 2 ^ 32)

/-- outfast.c:79-80, `WRITE_LONG_FIELD`: the 8 bytes of a C `long`. -/
def WRITE_LONG_FIELD (v : Int) : List Nat := bytesLE 8 (uimg 8 v)

/-- outfast.c:83-84, `WRITE_CHAR_FIELD`: one raw byte. -/
def WRITE_CHAR_FIELD (c : Nat) : List Nat := [c % 256]

/-- outfast.c:87-88, `WRITE_ENUM_FIELD`: the enumerator narrowed to an `int16`. -/
def WRITE_ENUM_FIELD (v : Nat) : List Nat := bytesLE 2 (v % 2 ^ 16)

/-- outfast.c:91-92, `WRITE_FLOAT_FIELD`: the 8-byte object image of a C
`double`, copied verbatim; `img` is that image. -/
def WRITE_FLOAT_FIELD (img : Nat) : List Nat := bytesLE 8 (img % 2 ^ 64)

/-- outfast.c:95-98, `WRITE_BOOL_FIELD`: one byte, 1 or 0. -/
def WRITE_BOOL_FIELD (b : Bool) : List Nat := [if b then 1 else 0]

/-- outfast.c:101-104, `WRITE_STRING_FIELD`: a possibly-NULL C string
(modelled as `Option (List Nat)` of its bytes, no NUL terminator stored):
`slen` (0 for NULL) as a 4-byte int, then the bytes whenever `slen > 0`. -/
def WRITE_STRING_FIELD (s : Option (List Nat)) : List Nat :=
  let slen : Nat := match s with | none => 0 | some cs => cs.length
  WRITE_INT_FIELD (slen : Int) ++
    (if 0 < slen then (match s with | none => [] | some cs => cs) else [])

/-- outfast.c:55-56, `WRITE_NODE_TYPE`: the node's `NodeTag` as an `int16`. -/
def WRITE_NODE_TYPE (tag : Nat) : List Nat := bytesLE 2 (tag % 2 ^ 16)

/- Modelled from the spec: the numeric `NodeTag` enumerator values live in
`nodes.h`, which is outside the sources under verification.  The spec fixes
only what matters: tag 0 is reserved for the null reference, and every real
variant (including the three list kinds) has its own distinct nonzero tag
that fits in 2 bytes.  The concrete numbers below are arbitrary subject to
those constraints. -/

/-- NodeTag of a generic (node-holding) list. -/
def T_List : Nat := 656
/-- NodeTag of an integer list. -/
def T_IntList : Nat := 657
/-- NodeTag of an Oid (identifier) list. -/
def T_OidList : Nat := 658
/-- NodeTag of an integer `Value` leaf. -/
def T_Integer : Nat := 651
/-- NodeTag of a float `Value` leaf. -/
def T_Float : Nat := 652
/-- NodeTag of a string `Value` leaf. -/
def T_String : Nat := 653
/-- NodeTag of a bit-string `Value` leaf. -/
def T_BitString : Nat := 654
/-- NodeTag of a null `Value` leaf. -/
def T_Null : Nat := 655
/-- NodeTag of an `Agg` plan node. -/
def T_Agg : Nat := 115
/-- NodeTag of a `Flow` node. -/
def T_Flow : Nat := 310
/-- NodeTag of a `Const` expression node. -/
def T_Const : Nat := 401
/-- NodeTag of a `Constraint` node. -/
def T_Constraint : Nat := 735
/-- NodeTag of an `A_Const` node. -/
def T_A_Const : Nat := 710

/-- A `Datum` (an 8-byte scalar that may be a value or a pointer).
`word` is its in-memory 8-byte value; `deref` is the byte run it denotes
when interpreted as a pointer (`none` when that pointer is NULL, i.e. when
`PointerIsValid` fails), whose length is what `datumGetSize` returns. -/
structure Datum where
  word : Nat
  deref : Option (List Nat)
deriving DecidableEq

/-- outfast.c:228-254, `_outDatum`: by-value Datums are copied as the 8-byte
`Datum` word; by-reference Datums as a `Size` (8-byte) length followed by
that many raw bytes, or a zero length for a NULL pointer. -/
def _outDatum (value : Datum) (typlen : Int) (typbyval : Bool) : List Nat :=
  if typbyval then
    bytesLE 8 (value.word % 2 ^ 64)
  else
    match value.deref with
    | none => bytesLE 8 0
    | some s => bytesLE 8 (s.length % 2 ^ 64) ++ s

/-- outfast.c:211-223, `_outBitmapset`: 4-byte word count (0 for NULL),
then the 4-byte `bitmapword`s. -/
def _outBitmapset (bms : Option (List Nat)) : List Nat :=
  match bms with
  | none => WRITE_INT_FIELD 0
  | some ws => WRITE_INT_FIELD (ws.length : Int) ++ ws.flatMap fun w => bytesLE 4 (w % 2 ^ 32)

/-- A `Value` literal leaf (parsenodes' `Value` union): integer (a C `long`),
float/string/bit-string (a possibly-NULL text), or null. -/
inductive Value where
  | intVal (ival : Int)
  | floatVal (str : Option (List Nat))
  | strVal (str : Option (List Nat))
  | bitStringVal (str : Option (List Nat))
  | nullVal
deriving DecidableEq

/-- outfast.c:1029-1035: the text payload of a float/string/bit-string
`Value`: 4-byte `slen` (0 for NULL) then the bytes whenever `slen > 0`. -/
def valueStrPayload (s : Option (List Nat)) : List Nat :=
  let slen : Nat := match s with | none => 0 | some cs => cs.length
  WRITE_INT_FIELD (slen : Int) ++
    (if 0 < slen then (match s with | none => [] | some cs => cs) else [])

/-- outfast.c:1016-1044, `_outValue`: 2-byte kind tag, then the payload:
8-byte `long` for integers, length-prefixed text for float/string/bit-string,
nothing for null. -/
def _outValue : Value → List Nat
  | .intVal i => bytesLE 2 (T_Integer % 2 ^ 16) ++ WRITE_LONG_FIELD i
  | .floatVal s => bytesLE 2 (T_Float % 2 ^ 16) ++ valueStrPayload s
  | .strVal s => bytesLE 2 (T_String % 2 ^ 16) ++ valueStrPayload s
  | .bitStringVal s => bytesLE 2 (T_BitString % 2 ^ 16) ++ valueStrPayload s
  | .nullVal => bytesLE 2 (T_Null % 2 ^ 16)

/-- Modelled from the spec: `ConstrType` (parsenodes.h is outside the sources
under verification).  The ten listed sub-kinds are the ones `_outConstraint`'s
switch cases name; `unlisted code` stands for any other enumerator (e.g. the
foreign-key sub-kind), which reaches the switch's `default:`. -/
inductive ConstrType where
  | CONSTR_NULL
  | CONSTR_NOTNULL
  | CONSTR_DEFAULT
  | CONSTR_CHECK
  | CONSTR_PRIMARY
  | CONSTR_UNIQUE
  | CONSTR_ATTR_DEFERRABLE
  | CONSTR_ATTR_NOT_DEFERRABLE
  | CONSTR_ATTR_DEFERRED
  | CONSTR_ATTR_IMMEDIATE
  | unlisted (code : Nat)
deriving DecidableEq

/-- The numeric enumerator value of a `ConstrType` (for `WRITE_ENUM_FIELD`). -/
def ConstrType.code : ConstrType → Nat
  | .CONSTR_NULL => 0
  | .CONSTR_NOTNULL => 1
  | .CONSTR_DEFAULT => 2
  | .CONSTR_CHECK => 3
  | .CONSTR_PRIMARY => 4
  | .CONSTR_UNIQUE => 5
  | .CONSTR_ATTR_DEFERRABLE => 7
  | .CONSTR_ATTR_NOT_DEFERRABLE => 8
  | .CONSTR_ATTR_DEFERRED => 9
  | .CONSTR_ATTR_IMMEDIATE => 10
  | .unlisted c => c

/-- A `Const` expression node's fields (plannodes' `Const`): type Oid,
declared length, by-value flag, null flag, and the `Datum` payload. -/
structure ConstExpr where
  consttype : Nat
  constlen : Int
  constbyval : Bool
  constisnull : Bool
  constvalue : Datum
deriving DecidableEq

/-- outfast.c:517-530, `_outConst`: tag, type metadata, then the `Datum`
payload only when the constant is not null. -/
def _outConst (c : ConstExpr) : List Nat :=
  WRITE_NODE_TYPE T_Const ++ WRITE_OID_FIELD c.consttype ++
  WRITE_INT_FIELD c.constlen ++ WRITE_BOOL_FIELD c.constbyval ++
  WRITE_BOOL_FIELD c.constisnull ++
  (if c.constisnull then [] else _outDatum c.constvalue c.constlen c.constbyval)

mutual
/-- The serialized fields of every node inheriting from `Plan`
(plannodes' `Plan` base struct), in `_outPlanInfo`'s emission order.
A field of C type `Node*`/`List*`/`Plan*` is a `Node` (with `Node.nullp`
for a NULL pointer); the two `Bitmapset*` fields are word lists;
the three `Cost`/`double` fields are their 8-byte object images. -/
inductive Plan where
  | mk (plan_node_id plan_parent_node_id : Int)
       (startup_cost total_cost plan_rows : Nat)
       (plan_width : Int)
       (targetlist qual : Node)
       (extParam allParam : Option (List Nat))
       (nParamExec : Int)
       (flow : Node) (dispatch : Int)
       (isDirectDispatch : Bool) (contentIds : Node)
       (nMotionNodes nInitPlans : Int)
       (sliceTable : Node)
       (lefttree righttree initPlan : Node)
       (operatorMemKB : Nat)

/-- An `Agg` plan node (plannodes' `Agg`), the representative plan-node shape:
its `Plan` base plus the fields `_outAgg` serializes.  The struct invariant
`numCols = ` number of entries of `grpColIdx` is built in by storing the
array and recomputing the count. -/
inductive Agg where
  | mk (plan : Plan) (aggstrategy : Nat) (grpColIdx : List Int)
       (numGroups transSpace numNullCols : Int)
       (inputGrouping grouping : Nat) (inputHasGrouping : Bool)
       (rollupGSTimes : Int) (lastAgg streaming : Bool)

/-- A `Flow` node, in `_outFlow`'s field order.  The struct invariant
`numSortCols = ` number of entries of each of the two arrays is built in by
storing the arrays and recomputing the count from `sortColIdx`. -/
inductive Flow where
  | mk (flotype req_move locustype : Nat) (segindex : Int)
       (sortColIdx : List Int) (sortOperators : List Nat)
       (hashExpr flow_before_req_move : Node)

/-- A `Constraint` node: name, constraint Oid, sub-kind, and the sub-kind
specific fields `_outConstraint`'s switch may emit. -/
inductive Constraint where
  | mk (name : Option (List Nat)) (conoid : Nat) (contype : ConstrType)
       (keys options : Node) (indexspace : Option (List Nat))
       (raw_expr : Node) (cooked_expr : Option (List Nat))

/-- An `A_Const` node: the literal `Value`, a type name reference, and a
source location. -/
inductive AConst where
  | mk (val : Value) (typname : Node) (location : Int)

/-- A tree reference as `_outNode` sees it: NULL, one of the three list
kinds, a `Value` leaf, one of the embedded tagged variants, or an object
whose runtime tag `t` is matched by no case of the dispatch switch. -/
inductive Node where
  | nullp
  | list (xs : NodeList)
  | intList (xs : List Int)
  | oidList (xs : List Nat)
  | valueNode (v : Value)
  | agg (a : Agg)
  | constExpr (c : ConstExpr)
  | flow (f : Flow)
  | aconst (a : AConst)
  | constraintNode (c : Constraint)
  | unknownTag (t : Nat)

/-- The cells of a generic list; each element is itself a (possibly NULL)
node reference. -/
inductive NodeList where
  | nil
  | cons (hd : Node) (tl : NodeList)
end

deriving instance DecidableEq for Plan, Agg, Flow, Constraint, AConst, Node, NodeList

/-- The number of cells (the `List` struct's `length` field, whose invariant
is to equal the actual cell count). -/
def NodeList.length : NodeList → Nat
  | .nil => 0
  | .cons _ tl => tl.length + 1

/-- Build a generic-list spine from a Lean list of element references. -/
def NodeList.ofList : List Node → NodeList
  | [] => .nil
  | x :: xs => .cons x (NodeList.ofList xs)

/-- The two process-wide mode variables, outfast.c:161-167:
`print_variable_fields` (default `true`) and `range_table`
(a `List *`, default NULL; NULL is `Node.nullp`). -/
structure Globals where
  print_variable_fields : Bool
  range_table : Node
deriving DecidableEq

/-- What one encoder call has produced: the bytes it appended to the output
buffer, how many `elog(WARNING)`s it raised, and the mode variables as it
left them. -/
structure EncOut where
  bytes : List Nat
  warns : Nat
  g : Globals
deriving DecidableEq

/-- Result of an encoder: `.error` models `elog(ERROR)` (the whole encode
aborts, no buffer); `.ok` carries the appended bytes, warnings, and globals. -/
abbrev EncRes := Except String EncOut

/-- outfast.c:271-277: the block of identifier and cost-estimate fields that
`_outPlanInfo` emits only when `print_variable_fields` is set:
`plan_node_id`, `plan_parent_node_id`, `startup_cost`, `total_cost`,
`plan_rows`, `plan_width` (36 bytes). -/
def planVarFront (pni ppni : Int) (sc tc pr : Nat) (pw : Int) : List Nat :=
  WRITE_INT_FIELD pni ++ WRITE_INT_FIELD ppni ++
  WRITE_FLOAT_FIELD sc ++ WRITE_FLOAT_FIELD tc ++ WRITE_FLOAT_FIELD pr ++
  WRITE_INT_FIELD pw

mutual
/-- outfast.c:1144-1963, `_outNode`: the recursive tree walker.  NULL emits
the 2-byte tag 0; the three list kinds are handled next (`_outList`'s body,
outfast.c:169-202, inlined per kind); `Value` leaves go to `_outValue`;
every other reference dispatches on its runtime tag, and a tag matched by
no case is a fatal `elog(ERROR)`. -/
def _outNode (g : Globals) : Node → EncRes
  | .nullp => pure ⟨bytesLE 2 0, 0, g⟩
  | .list xs => do
      let ⟨b, w, g'⟩ ← _outNodeList g xs
      pure ⟨WRITE_NODE_TYPE T_List ++ WRITE_INT_FIELD (xs.length : Int) ++ b, w, g'⟩
  | .intList ys =>
      pure ⟨WRITE_NODE_TYPE T_IntList ++ WRITE_INT_FIELD (ys.length : Int) ++
            ys.flatMap WRITE_INT_FIELD, 0, g⟩
  | .oidList zs =>
      pure ⟨WRITE_NODE_TYPE T_OidList ++ WRITE_INT_FIELD (zs.length : Int) ++
            zs.flatMap WRITE_OID_FIELD, 0, g⟩
  | .valueNode v => pure ⟨_outValue v, 0, g⟩
  | .agg a => _outAgg g a
  | .constExpr c => pure ⟨_outConst c, 0, g⟩
  | .flow f => _outFlow g f
  | .aconst a => _outAConst g a
  | .constraintNode c => _outConstraint g c
  | .unknownTag _ => .error "could not serialize unrecognized node type"

/-- outfast.c:184-190, the `foreach` loop of `_outList` on a generic list:
each cell's element is encoded by recursing through `_outNode`. -/
def _outNodeList (g : Globals) : NodeList → EncRes
  | .nil => pure ⟨[], 0, g⟩
  | .cons hd tl => do
      let ⟨b1, w1, g⟩ ← _outNode g hd
      let ⟨b2, w2, g'⟩ ← _outNodeList g tl
      pure ⟨b1 ++ b2, w1 + w2, g'⟩

/-- outfast.c:266-309, `_outPlanInfo`: the shared base-field block of all
plan nodes.  The identifier/cost block (`planVarFront`), the second block
(`flow`, `dispatch`, `directDispatch.isDirectDispatch`,
`directDispatch.contentIds`, `nMotionNodes`, `nInitPlans`, `sliceTable`)
and the `operatorMemKB` field are emitted only when
`print_variable_fields` is set (the global is re-read at each of the three
`if`s, hence from the threaded `Globals` current at that point). -/
def _outPlanInfo (g : Globals) : Plan → EncRes
  | .mk pni ppni sc tc pr pw tl q ep ap npe fl disp idd cids nmn nip slt lt rt ip omkb => do
      let v1 : List Nat := if g.print_variable_fields then planVarFront pni ppni sc tc pr pw else []
      let ⟨b1, w1, g⟩ ← _outNode g tl
      let ⟨b2, w2, g⟩ ← _outNode g q
      let bmid := _outBitmapset ep ++ _outBitmapset ap ++ WRITE_INT_FIELD npe
      let blk : EncRes :=
        if g.print_variable_fields then do
          let ⟨bf, wf, g⟩ ← _outNode g fl
          let ⟨bc, wc, g⟩ ← _outNode g cids
          let ⟨bs, ws, g'⟩ ← _outNode g slt
          pure ⟨bf ++ WRITE_INT_FIELD disp ++ WRITE_BOOL_FIELD idd ++ bc ++
                WRITE_INT_FIELD nmn ++ WRITE_INT_FIELD nip ++ bs, wf + wc + ws, g'⟩
        else pure ⟨[], 0, g⟩
      let ⟨b3, w3, g⟩ ← blk
      let ⟨b4, w4, g⟩ ← _outNode g lt
      let ⟨b5, w5, g⟩ ← _outNode g rt
      let ⟨b6, w6, g⟩ ← _outNode g ip
      let v3 : List Nat := if g.print_variable_fields then WRITE_UINT64_FIELD omkb else []
      pure ⟨v1 ++ b1 ++ b2 ++ bmid ++ b3 ++ b4 ++ b5 ++ b6 ++ v3,
            w1 + w2 + w3 + w4 + w5 + w6, g⟩

/-- outfast.c:376-401, `_outAgg`: tag, the shared `_outPlanInfo` block, then
the Agg fields; `numGroups` and `transSpace` only when
`print_variable_fields` is set. -/
def _outAgg (g : Globals) : Agg → EncRes
  | .mk plan aggstrategy grpColIdx numGroups transSpace numNullCols inputGrouping grouping
       inputHasGrouping rollupGSTimes lastAgg streaming => do
      let ⟨b, w, g⟩ ← _outPlanInfo g plan
      let mid := WRITE_ENUM_FIELD aggstrategy ++ WRITE_INT_FIELD (grpColIdx.length : Int) ++
                 grpColIdx.flatMap WRITE_INT16_FIELD
      let v : List Nat :=
        if g.print_variable_fields then
          WRITE_LONG_FIELD numGroups ++ WRITE_INT_FIELD transSpace
        else []
      pure ⟨WRITE_NODE_TYPE T_Agg ++ b ++ mid ++ v ++
            WRITE_INT_FIELD numNullCols ++ WRITE_UINT64_FIELD inputGrouping ++
            WRITE_UINT64_FIELD grouping ++ WRITE_BOOL_FIELD inputHasGrouping ++
            WRITE_INT_FIELD rollupGSTimes ++ WRITE_BOOL_FIELD lastAgg ++
            WRITE_BOOL_FIELD streaming, w, g⟩

/-- outfast.c:610-637, `_outFlow`: tag, three enums, `segindex`,
`numSortCols` with its two arrays, then the two node references. -/
def _outFlow (g : Globals) : Flow → EncRes
  | .mk flotype req_move locustype segindex sortColIdx sortOperators hashExpr
       flow_before_req_move => do
      let h := WRITE_NODE_TYPE T_Flow ++ WRITE_ENUM_FIELD flotype ++
               WRITE_ENUM_FIELD req_move ++ WRITE_ENUM_FIELD locustype ++
               WRITE_INT_FIELD segindex ++ WRITE_INT_FIELD (sortColIdx.length : Int) ++
               sortColIdx.flatMap WRITE_INT16_FIELD ++
               sortOperators.flatMap WRITE_OID_FIELD
      let ⟨b1, w1, g⟩ ← _outNode g hashExpr
      let ⟨b2, w2, g'⟩ ← _outNode g flow_before_req_move
      pure ⟨h ++ b1 ++ b2, w1 + w2, g'⟩

/-- outfast.c:1046-1056, `_outAConst`: tag, the `Value` payload, the type
name reference, and the location. -/
def _outAConst (g : Globals) : AConst → EncRes
  | .mk val typname location => do
      let ⟨b, w, g'⟩ ← _outNode g typname
      pure ⟨WRITE_NODE_TYPE T_A_Const ++ _outValue val ++ b ++ WRITE_INT_FIELD location, w, g'⟩

/-- outfast.c:1057-1094, `_outConstraint`: tag, `name`, `conoid`, `contype`,
then a switch on the sub-kind: primary/unique emit `keys`, `options`,
`indexspace`; check/default emit `raw_expr`, `cooked_expr`; the six
attribute-like sub-kinds emit nothing further; any other sub-kind raises an
`elog(WARNING)` (counted, not fatal) and emits nothing further. -/
def _outConstraint (g : Globals) : Constraint → EncRes
  | .mk name conoid contype keys options indexspace raw_expr cooked_expr => do
      let h := WRITE_NODE_TYPE T_Constraint ++ WRITE_STRING_FIELD name ++
               WRITE_OID_FIELD conoid ++ WRITE_ENUM_FIELD contype.code
      match contype with
      | .CONSTR_PRIMARY | .CONSTR_UNIQUE => do
          let ⟨b1, w1, g⟩ ← _outNode g keys
          let ⟨b2, w2, g'⟩ ← _outNode g options
          pure ⟨h ++ b1 ++ b2 ++ WRITE_STRING_FIELD indexspace, w1 + w2, g'⟩
      | .CONSTR_CHECK | .CONSTR_DEFAULT => do
          let ⟨b1, w1, g'⟩ ← _outNode g raw_expr
          pure ⟨h ++ b1 ++ WRITE_STRING_FIELD cooked_expr, w1, g'⟩
      | .CONSTR_NOTNULL | .CONSTR_NULL | .CONSTR_ATTR_DEFERRABLE
      | .CONSTR_ATTR_NOT_DEFERRABLE | .CONSTR_ATTR_DEFERRED | .CONSTR_ATTR_IMMEDIATE =>
          pure ⟨h, 0, g⟩
      | .unlisted _ =>
          pure ⟨h, 1, g⟩
end

/-- The buffer `nodeToBinaryStringFast` returns, with the out-parameter
`*length` it fills in (`str.len`). -/
structure BinaryString where
  data : List Nat
  len : Nat
deriving DecidableEq

/-- outfast.c:1998-2014, `nodeToBinaryStringFast`: run the tree walker on
the root, append the fixed 2-byte sentinel `(int16) 0xDEAD`, and return the
buffer with its length. -/
def nodeToBinaryStringFast (g : Globals) (obj : Node) :
    Except String (BinaryString × Nat × Globals) := do
  let ⟨b, w, g'⟩ ← _outNode g obj
  let data := b ++ bytesLE 2 0xDEAD
  pure (⟨data, data.length⟩, w, g')

/-- outfast.c:1971-1978, `outfast_workfile_mgr_init`: asserts that
`range_table` is NULL and `print_variable_fields` is set (a failed `Assert`
is fatal: `none`), then enters reduced mode with the supplied range table. -/
def outfast_workfile_mgr_init (g : Globals) (rtable : Node) : Option Globals :=
  if g.range_table = Node.nullp ∧ g.print_variable_fields = true then
    some ⟨false, rtable⟩
  else none

/-- outfast.c:1984-1991, `outfast_workfile_mgr_end`: asserts that
`print_variable_fields` is clear, then restores the defaults. -/
def outfast_workfile_mgr_end (g : Globals) : Option Globals :=
  if g.print_variable_fields = false then some ⟨true, Node.nullp⟩ else none

/-! ## Basic lemmas -/

/-- A successful monadic bind on `Except` factors into a successful first
step and a successful continuation. -/
theorem except_bind_ok {ε α β : Type} {e : Except ε α} {f : α → Except ε β} {r : β}
    (h : (e >>= f) = .ok r) : ∃ a, e = .ok a ∧ f a = .ok r := by
  cases e with
  | error err => exact absurd h (by simp [Bind.bind, Except.bind])
  | ok a => exact ⟨a, rfl, by simpa [Bind.bind, Except.bind] using h⟩

/-- Binding a success just applies the continuation. -/
@[simp] theorem except_ok_bind {e a b : Type} (x : a) (f : a → Except e b) :
    (Except.ok x >>= f : Except e b) = f x := rfl

/-- Binding an error propagates it unchanged. -/
@[simp] theorem except_error_bind {e a b : Type} (err : e) (f : a → Except e b) :
    ((Except.error err : Except e a) >>= f) = .error err := rfl

/-- `pure` on `Except` is `.ok`. -/
@[simp] theorem except_pure_ok {e a : Type} (x : a) : (pure x : Except e a) = .ok x := rfl

/-- `bytesLE` always produces exactly the requested width. -/
@[simp] theorem bytesLE_length (w v : Nat) : (bytesLE w v).length = w := by
  simp [bytesLE]

/-- An int field is 4 bytes. -/
@[simp] theorem WRITE_INT_FIELD_length (v : Int) : (WRITE_INT_FIELD v).length = 4 := by
  simp [WRITE_INT_FIELD]

/-- A double field is 8 bytes. -/
@[simp] theorem WRITE_FLOAT_FIELD_length (v : Nat) : (WRITE_FLOAT_FIELD v).length = 8 := by
  simp [WRITE_FLOAT_FIELD]

/-- The identifier/cost-estimate block is 36 bytes. -/
@[simp] theorem planVarFront_length (pni ppni : Int) (sc tc pr : Nat) (pw : Int) :
    (planVarFront pni ppni sc tc pr pw).length = 36 := by
  simp [planVarFront]

/-! ## The encoders never change the mode variables

The C encode path contains no assignment to `print_variable_fields` or
`range_table` (the only writes in outfast.c are in the two
`outfast_workfile_mgr` bracket functions); correspondingly every encoder
returns the `Globals` it was given.  Proved by mutual structural induction
mirroring the encoders' own recursion. -/

mutual
theorem outNode_g_eq (g : Globals) (n : Node) :
    ∀ out, _outNode g n = .ok out → out.g = g := by
  match n with
  | .nullp => intro out h; cases h; rfl
  | .list xs =>
      intro out h
      simp only [_outNode] at h
      obtain ⟨⟨b, w, g'⟩, e1, h⟩ := except_bind_ok h
      cases h
      exact outNodeList_g_eq g xs ⟨b, w, g'⟩ e1
  | .intList ys => intro out h; cases h; rfl
  | .oidList zs => intro out h; cases h; rfl
  | .valueNode v => intro out h; cases h; rfl
  | .agg a =>
      intro out h
      simp only [_outNode] at h
      exact outAgg_g_eq g a out h
  | .constExpr c => intro out h; cases h; rfl
  | .flow f =>
      intro out h
      simp only [_outNode] at h
      exact outFlow_g_eq g f out h
  | .aconst a =>
      intro out h
      simp only [_outNode] at h
      exact outAConst_g_eq g a out h
  | .constraintNode c =>
      intro out h
      simp only [_outNode] at h
      exact outConstraint_g_eq g c out h
  | .unknownTag t => intro out h; cases h

theorem outNodeList_g_eq (g : Globals) (xs : NodeList) :
    ∀ out, _outNodeList g xs = .ok out → out.g = g := by
  match xs with
  | .nil => intro out h; cases h; rfl
  | .cons hd tl =>
      intro out h
      simp only [_outNodeList] at h
      obtain ⟨⟨b1, w1, g1⟩, e1, h⟩ := except_bind_ok h
      obtain ⟨⟨b2, w2, g2⟩, e2, h⟩ := except_bind_ok h
      cases h
      have k1 := outNode_g_eq g hd ⟨b1, w1, g1⟩ e1
      have k2 := outNodeList_g_eq g1 tl ⟨b2, w2, g2⟩ e2
      simp_all

theorem outPlanInfo_g_eq (g : Globals) (p : Plan) :
    ∀ out, _outPlanInfo g p = .ok out → out.g = g := by
  match p with
  | .mk pni ppni sc tc pr pw tl q ep ap npe fl disp idd cids nmn nip slt lt rt ip omkb =>
      intro out h
      simp only [_outPlanInfo] at h
      obtain ⟨⟨b1, w1, g1⟩, e1, h⟩ := except_bind_ok h
      obtain ⟨⟨b2, w2, g2⟩, e2, h⟩ := except_bind_ok h
      obtain ⟨⟨b3, w3, g3⟩, e3, h⟩ := except_bind_ok h
      obtain ⟨⟨b4, w4, g4⟩, e4, h⟩ := except_bind_ok h
      obtain ⟨⟨b5, w5, g5⟩, e5, h⟩ := except_bind_ok h
      obtain ⟨⟨b6, w6, g6⟩, e6, h⟩ := except_bind_ok h
      cases h
      have k1 := outNode_g_eq g tl ⟨b1, w1, g1⟩ e1
      have k2 := outNode_g_eq g1 q ⟨b2, w2, g2⟩ e2
      have k3 : g3 = g2 := by
        split at e3
        · obtain ⟨⟨bf, wf, gf⟩, ef, e3⟩ := except_bind_ok e3
          obtain ⟨⟨bc, wc, gc⟩, ec, e3⟩ := except_bind_ok e3
          obtain ⟨⟨bs, ws, gs⟩, es, e3⟩ := except_bind_ok e3
          cases e3
          have kf := outNode_g_eq g2 fl ⟨bf, wf, gf⟩ ef
          have kc := outNode_g_eq gf cids ⟨bc, wc, gc⟩ ec
          have ks := outNode_g_eq gc slt ⟨bs, ws, gs⟩ es
          simp_all
        · cases e3; rfl
      have k4 := outNode_g_eq g3 lt ⟨b4, w4, g4⟩ e4
      have k5 := outNode_g_eq g4 rt ⟨b5, w5, g5⟩ e5
      have k6 := outNode_g_eq g5 ip ⟨b6, w6, g6⟩ e6
      simp_all

theorem outAgg_g_eq (g : Globals) (a : Agg) :
    ∀ out, _outAgg g a = .ok out → out.g = g := by
  match a with
  | .mk plan aggstrategy grpColIdx numGroups transSpace numNullCols inputGrouping grouping
       inputHasGrouping rollupGSTimes lastAgg streaming =>
      intro out h
      simp only [_outAgg] at h
      obtain ⟨⟨b, w, g1⟩, e1, h⟩ := except_bind_ok h
      cases h
      exact outPlanInfo_g_eq g plan ⟨b, w, g1⟩ e1

theorem outFlow_g_eq (g : Globals) (f : Flow) :
    ∀ out, _outFlow g f = .ok out → out.g = g := by
  match f with
  | .mk flotype req_move locustype segindex sortColIdx sortOperators hashExpr
       flow_before_req_move =>
      intro out h
      simp only [_outFlow] at h
      obtain ⟨⟨b1, w1, g1⟩, e1, h⟩ := except_bind_ok h
      obtain ⟨⟨b2, w2, g2⟩, e2, h⟩ := except_bind_ok h
      cases h
      have k1 := outNode_g_eq g hashExpr ⟨b1, w1, g1⟩ e1
      have k2 := outNode_g_eq g1 flow_before_req_move ⟨b2, w2, g2⟩ e2
      simp_all

theorem outAConst_g_eq (g : Globals) (a : AConst) :
    ∀ out, _outAConst g a = .ok out → out.g = g := by
  match a with
  | .mk val typname location =>
      intro out h
      simp only [_outAConst] at h
      obtain ⟨⟨b, w, g1⟩, e1, h⟩ := except_bind_ok h
      cases h
      exact outNode_g_eq g typname ⟨b, w, g1⟩ e1

theorem outConstraint_g_eq (g : Globals) (c : Constraint) :
    ∀ out, _outConstraint g c = .ok out → out.g = g := by
  match c with
  | .mk name conoid contype keys options indexspace raw_expr cooked_expr =>
      intro out h
      simp only [_outConstraint] at h
      match contype with
      | .CONSTR_PRIMARY | .CONSTR_UNIQUE =>
          obtain ⟨⟨b1, w1, g1⟩, e1, h⟩ := except_bind_ok h
          obtain ⟨⟨b2, w2, g2⟩, e2, h⟩ := except_bind_ok h
          cases h
          have k1 := outNode_g_eq g keys ⟨b1, w1, g1⟩ e1
          have k2 := outNode_g_eq g1 options ⟨b2, w2, g2⟩ e2
          simp_all
      | .CONSTR_CHECK | .CONSTR_DEFAULT =>
          obtain ⟨⟨b1, w1, g1⟩, e1, h⟩ := except_bind_ok h
          cases h
          exact outNode_g_eq g raw_expr ⟨b1, w1, g1⟩ e1
      | .CONSTR_NOTNULL | .CONSTR_NULL | .CONSTR_ATTR_DEFERRABLE
      | .CONSTR_ATTR_NOT_DEFERRABLE | .CONSTR_ATTR_DEFERRED | .CONSTR_ATTR_IMMEDIATE =>
          cases h; rfl
      | .unlisted code => cases h; rfl
end

/-! ## The mode switch and `_outPlanInfo` -/

/-- In full mode a successful `_outPlanInfo` starts with the 36-byte
identifier/cost block. -/
theorem outPlanInfo_ok_take36 (g : Globals)
    (pni ppni : Int) (sc tc pr : Nat) (pw : Int) (tl q : Node) (ep ap : Option (List Nat))
    (npe : Int) (fl : Node) (disp : Int) (idd : Bool) (cids : Node) (nmn nip : Int)
    (slt lt rt ip : Node) (omkb : Nat)
    (hpvf : g.print_variable_fields = true) :
    ∀ out, _outPlanInfo g (.mk pni ppni sc tc pr pw tl q ep ap npe fl disp idd cids
        nmn nip slt lt rt ip omkb) = .ok out →
      out.bytes.take 36 = planVarFront pni ppni sc tc pr pw := by
  intro out h
  simp only [_outPlanInfo] at h
  obtain ⟨⟨b1, w1, g1⟩, e1, h⟩ := except_bind_ok h
  obtain ⟨⟨b2, w2, g2⟩, e2, h⟩ := except_bind_ok h
  obtain ⟨⟨b3, w3, g3⟩, e3, h⟩ := except_bind_ok h
  obtain ⟨⟨b4, w4, g4⟩, e4, h⟩ := except_bind_ok h
  obtain ⟨⟨b5, w5, g5⟩, e5, h⟩ := except_bind_ok h
  obtain ⟨⟨b6, w6, g6⟩, e6, h⟩ := except_bind_ok h
  cases h
  simp only [hpvf, eq_self_iff_true, if_true, List.append_assoc]
  exact List.take_left' (planVarFront_length pni ppni sc tc pr pw)

/-- In reduced mode `_outPlanInfo` does not depend on any of the variable
fields: two plans agreeing on the unconditionally emitted fields encode
identically however their identifier, cost, flow, dispatch, motion, slice
and memory fields differ. -/
theorem outPlanInfo_reduced_agrees (g : Globals) (hpvf : g.print_variable_fields = false)
    (pni₁ ppni₁ : Int) (sc₁ tc₁ pr₁ : Nat) (pw₁ : Int)
    (pni₂ ppni₂ : Int) (sc₂ tc₂ pr₂ : Nat) (pw₂ : Int)
    (fl₁ fl₂ : Node) (disp₁ disp₂ : Int) (idd₁ idd₂ : Bool) (cids₁ cids₂ : Node)
    (nmn₁ nip₁ nmn₂ nip₂ : Int) (slt₁ slt₂ : Node) (omkb₁ omkb₂ : Nat)
    (tl q : Node) (ep ap : Option (List Nat)) (npe : Int) (lt rt ip : Node) :
    _outPlanInfo g (.mk pni₁ ppni₁ sc₁ tc₁ pr₁ pw₁ tl q ep ap npe fl₁ disp₁ idd₁ cids₁
        nmn₁ nip₁ slt₁ lt rt ip omkb₁) =
    _outPlanInfo g (.mk pni₂ ppni₂ sc₂ tc₂ pr₂ pw₂ tl q ep ap npe fl₂ disp₂ idd₂ cids₂
        nmn₂ nip₂ slt₂ lt rt ip omkb₂) := by
  simp only [_outPlanInfo]
  cases e1 : _outNode g tl with
  | error e => rfl
  | ok a =>
    obtain ⟨b1, w1, g1⟩ := a
    have k1 : g1 = g := outNode_g_eq g tl ⟨b1, w1, g1⟩ e1
    simp only [except_ok_bind]
    cases e2 : _outNode g1 q with
    | error e => rfl
    | ok a =>
      obtain ⟨b2, w2, g2⟩ := a
      have k2 : g2 = g := k1 ▸ outNode_g_eq g1 q ⟨b2, w2, g2⟩ e2
      have hpvf2 : g2.print_variable_fields = false := by rw [k2, hpvf]
      simp only [except_ok_bind, hpvf2, Bool.false_eq_true, if_false, except_pure_ok]
      cases e4 : _outNode g2 lt with
      | error e => rfl
      | ok a =>
        obtain ⟨b4, w4, g4⟩ := a
        have k4 : g4 = g := k2 ▸ outNode_g_eq g2 lt ⟨b4, w4, g4⟩ e4
        simp only [except_ok_bind]
        cases e5 : _outNode g4 rt with
        | error e => rfl
        | ok a =>
          obtain ⟨b5, w5, g5⟩ := a
          have k5 : g5 = g := k4 ▸ outNode_g_eq g4 rt ⟨b5, w5, g5⟩ e5
          simp only [except_ok_bind]
          cases e6 : _outNode g5 ip with
          | error e => rfl
          | ok a =>
            obtain ⟨b6, w6, g6⟩ := a
            have k6 : g6 = g := k5 ▸ outNode_g_eq g5 ip ⟨b6, w6, g6⟩ e6
            have hpvf6 : g6.print_variable_fields = false := by rw [k6, hpvf]
            simp only [except_ok_bind, hpvf, hpvf6, Bool.false_eq_true, if_false]

/-! ## Claims -/

/-- **C1** (amended).  When `print_variable_fields` is false, `_outPlanInfo`
omits `plan_node_id`, `plan_parent_node_id`, `startup_cost`, `total_cost`,
`plan_rows`, `plan_width`, `flow`, `dispatch`, `directDispatch`,
`nMotionNodes`, `nInitPlans`, `sliceTable` and `operatorMemKB`: two plans
that differ only in those fields encode to byte-identical output in reduced
mode.  In full mode their encodings differ whenever the 36-byte
identifier/cost block images differ (in particular whenever any of the six
leading scalar fields differs in its byte image) and the encode succeeds.
The original claim's stronger full-mode clause — that the encodings differ
for *every* difference confined to those fields — fails: NULL and empty
strings share one wire image, so a difference hidden below `flow` can be
invisible in full mode too (the counterexample below exhibits this). -/
theorem claim_C1_mode_controller (g : Globals)
    (pni₁ ppni₁ : Int) (sc₁ tc₁ pr₁ : Nat) (pw₁ : Int)
    (pni₂ ppni₂ : Int) (sc₂ tc₂ pr₂ : Nat) (pw₂ : Int)
    (fl₁ fl₂ : Node) (disp₁ disp₂ : Int) (idd₁ idd₂ : Bool) (cids₁ cids₂ : Node)
    (nmn₁ nip₁ nmn₂ nip₂ : Int) (slt₁ slt₂ : Node) (omkb₁ omkb₂ : Nat)
    (tl q : Node) (ep ap : Option (List Nat)) (npe : Int) (lt rt ip : Node) :
    (g.print_variable_fields = false →
      _outPlanInfo g (.mk pni₁ ppni₁ sc₁ tc₁ pr₁ pw₁ tl q ep ap npe fl₁ disp₁ idd₁ cids₁
          nmn₁ nip₁ slt₁ lt rt ip omkb₁) =
      _outPlanInfo g (.mk pni₂ ppni₂ sc₂ tc₂ pr₂ pw₂ tl q ep ap npe fl₂ disp₂ idd₂ cids₂
          nmn₂ nip₂ slt₂ lt rt ip omkb₂))
    ∧ (g.print_variable_fields = true →
       planVarFront pni₁ ppni₁ sc₁ tc₁ pr₁ pw₁ ≠ planVarFront pni₂ ppni₂ sc₂ tc₂ pr₂ pw₂ →
       (∃ out, _outPlanInfo g (.mk pni₁ ppni₁ sc₁ tc₁ pr₁ pw₁ tl q ep ap npe fl₁ disp₁ idd₁
           cids₁ nmn₁ nip₁ slt₁ lt rt ip omkb₁) = .ok out) →
       _outPlanInfo g (.mk pni₁ ppni₁ sc₁ tc₁ pr₁ pw₁ tl q ep ap npe fl₁ disp₁ idd₁ cids₁
           nmn₁ nip₁ slt₁ lt rt ip omkb₁) ≠
       _outPlanInfo g (.mk pni₂ ppni₂ sc₂ tc₂ pr₂ pw₂ tl q ep ap npe fl₂ disp₂ idd₂ cids₂
           nmn₂ nip₂ slt₂ lt rt ip omkb₂)) := by
  constructor
  · intro hpvf
    exact outPlanInfo_reduced_agrees g hpvf pni₁ ppni₁ sc₁ tc₁ pr₁ pw₁ pni₂ ppni₂ sc₂ tc₂ pr₂
      pw₂ fl₁ fl₂ disp₁ disp₂ idd₁ idd₂ cids₁ cids₂ nmn₁ nip₁ nmn₂ nip₂ slt₁ slt₂ omkb₁ omkb₂
      tl q ep ap npe lt rt ip
  · rintro hpvf hfront ⟨out, hok⟩ heq
    have hok2 : _outPlanInfo g (.mk pni₂ ppni₂ sc₂ tc₂ pr₂ pw₂ tl q ep ap npe fl₂ disp₂ idd₂
        cids₂ nmn₂ nip₂ slt₂ lt rt ip omkb₂) = .ok out := heq ▸ hok
    have t1 := outPlanInfo_ok_take36 g pni₁ ppni₁ sc₁ tc₁ pr₁ pw₁ tl q ep ap npe fl₁ disp₁
      idd₁ cids₁ nmn₁ nip₁ slt₁ lt rt ip omkb₁ hpvf out hok
    have t2 := outPlanInfo_ok_take36 g pni₂ ppni₂ sc₂ tc₂ pr₂ pw₂ tl q ep ap npe fl₂ disp₂
      idd₂ cids₂ nmn₂ nip₂ slt₂ lt rt ip omkb₂ hpvf out hok2
    exact hfront (t1.symm.trans t2)

/-- Witness for C1 at concrete inputs: two plans differing only in
`plan_node_id` (1 vs 2) agree byte-for-byte in reduced mode and differ in
full mode. -/
theorem claim_C1_mode_controller_witness :
    (_outPlanInfo ⟨false, Node.nullp⟩
        (.mk 1 0 0 0 0 0 .nullp .nullp none none 0 .nullp 0 false .nullp 0 0 .nullp
          .nullp .nullp .nullp 0) =
     _outPlanInfo ⟨false, Node.nullp⟩
        (.mk 2 0 0 0 0 0 .nullp .nullp none none 0 .nullp 0 false .nullp 0 0 .nullp
          .nullp .nullp .nullp 0))
    ∧ (_outPlanInfo ⟨true, Node.nullp⟩
        (.mk 1 0 0 0 0 0 .nullp .nullp none none 0 .nullp 0 false .nullp 0 0 .nullp
          .nullp .nullp .nullp 0) ≠
       _outPlanInfo ⟨true, Node.nullp⟩
        (.mk 2 0 0 0 0 0 .nullp .nullp none none 0 .nullp 0 false .nullp 0 0 .nullp
          .nullp .nullp .nullp 0)) :=
  ⟨(claim_C1_mode_controller ⟨false, Node.nullp⟩ 1 0 0 0 0 0 2 0 0 0 0 0 .nullp .nullp 0 0
      false false .nullp .nullp 0 0 0 0 .nullp .nullp 0 0 .nullp .nullp none none 0 .nullp
      .nullp .nullp).1 rfl,
   (claim_C1_mode_controller ⟨true, Node.nullp⟩ 1 0 0 0 0 0 2 0 0 0 0 0 .nullp .nullp 0 0
      false false .nullp .nullp 0 0 0 0 .nullp .nullp 0 0 .nullp .nullp none none 0 .nullp
      .nullp .nullp).2 rfl (by decide) ⟨_, rfl⟩⟩

/-- A flow whose `hashExpr` list holds one string literal whose text is
NULL (counterexample to C1's full-mode clause). -/
def cexFlowA : Node :=
  .flow (.mk 0 0 0 0 [] [] (.list (.cons (.aconst (.mk (.strVal none) .nullp 0)) .nil)) .nullp)

/-- Like `cexFlowA` but the string literal's text is the empty string. -/
def cexFlowB : Node :=
  .flow (.mk 0 0 0 0 [] [] (.list (.cons (.aconst (.mk (.strVal (some [])) .nullp 0)) .nil))
    .nullp)

/-- A plan whose only nontrivial field is `flow := cexFlowA`. -/
def cexPlanA : Plan :=
  .mk 0 0 0 0 0 0 .nullp .nullp none none 0 cexFlowA 0 false .nullp 0 0 .nullp .nullp .nullp
    .nullp 0

/-- Like `cexPlanA` with `flow := cexFlowB`; it differs from `cexPlanA` only
in the `flow` field, one of the fields C1 lists. -/
def cexPlanB : Plan :=
  .mk 0 0 0 0 0 0 .nullp .nullp none none 0 cexFlowB 0 false .nullp 0 0 .nullp .nullp .nullp
    .nullp 0

/-- **C1 counterexample**: two distinct plan trees differing only in the
`flow` field (a NULL vs an empty string literal below it) encode to the
same bytes in full mode, because NULL and empty strings share one wire
image — so the claim's full-mode clause fails as universally stated. -/
theorem claim_C1_counterexample :
    cexPlanA ≠ cexPlanB ∧
    (⟨true, Node.nullp⟩ : Globals).print_variable_fields = true ∧
    _outPlanInfo ⟨true, Node.nullp⟩ cexPlanA = _outPlanInfo ⟨true, Node.nullp⟩ cexPlanB :=
  ⟨by decide, rfl, rfl⟩

/-- **C2**: a reference whose runtime tag is matched by no case of the
dispatch switch is a fatal `elog(ERROR)`: the tree walker and the whole
encode abort, and no byte buffer (in particular no partial buffer) is
returned. -/
theorem claim_C2_unknown_tag_fatal (g : Globals) (t : Nat) :
    _outNode g (.unknownTag t) = .error "could not serialize unrecognized node type"
    ∧ nodeToBinaryStringFast g (.unknownTag t) =
        .error "could not serialize unrecognized node type"
    ∧ ∀ res, nodeToBinaryStringFast g (.unknownTag t) ≠ .ok res := by
  refine ⟨rfl, rfl, fun res h => ?_⟩
  have h2 : (Except.error "could not serialize unrecognized node type" :
      Except String (BinaryString × Nat × Globals)) = .ok res :=
    (rfl : nodeToBinaryStringFast g (.unknownTag t) =
      .error "could not serialize unrecognized node type").symm.trans h
  exact absurd h2 (by simp)

/-- Witness for C2 at a concrete unknown tag. -/
theorem claim_C2_unknown_tag_fatal_witness :
    _outNode ⟨true, Node.nullp⟩ (.unknownTag 424242) =
      .error "could not serialize unrecognized node type" :=
  (claim_C2_unknown_tag_fatal ⟨true, Node.nullp⟩ 424242).1

/-- `NodeList.ofList` preserves the element count. -/
theorem nodeListOfList_length (l : List Node) : (NodeList.ofList l).length = l.length := by
  induction l with
  | nil => rfl
  | cons x xs ih => simp [NodeList.ofList, NodeList.length, ih]

/-- Encoding the cells of a generic list concatenates the elements'
encodings in order (stated for elements whose encodings are given
pointwise). -/
theorem outNodeList_elements (g : Globals) :
    ∀ (elems : List (Node × List Nat × Nat)),
      (∀ e ∈ elems, _outNode g e.1 = .ok ⟨e.2.1, e.2.2, g⟩) →
      _outNodeList g (NodeList.ofList (elems.map Prod.fst)) =
        .ok ⟨(elems.map fun e => e.2.1).flatten, (elems.map fun e => e.2.2).sum, g⟩ := by
  intro elems
  induction elems with
  | nil => intro _; simp [NodeList.ofList, _outNodeList]
  | cons e es ih =>
      intro h
      obtain ⟨n, b, w⟩ := e
      have hn : _outNode g n = .ok ⟨b, w, g⟩ := h (n, b, w) (by simp)
      have hes := ih fun e he => h e (List.mem_cons_of_mem _ he)
      simp only [List.map_cons, NodeList.ofList, _outNodeList, hn, except_ok_bind, hes,
        List.flatten, List.sum_cons]
      rfl

/-- **C3**: a NULL list encodes as the 2-byte tag 0 alone; a non-null list
as its own 2-byte kind tag, a 4-byte count equal to its length, then the
elements in order — recursively encoded for a generic list, raw 4-byte
values with no per-element tag for integer and Oid lists. -/
theorem claim_C3_list_encoding (g : Globals) :
    (_outNode g .nullp = .ok ⟨bytesLE 2 0, 0, g⟩)
    ∧ (∀ ys : List Int, _outNode g (.intList ys) =
        .ok ⟨WRITE_NODE_TYPE T_IntList ++ WRITE_INT_FIELD (ys.length : Int) ++
             ys.flatMap WRITE_INT_FIELD, 0, g⟩)
    ∧ (∀ zs : List Nat, _outNode g (.oidList zs) =
        .ok ⟨WRITE_NODE_TYPE T_OidList ++ WRITE_INT_FIELD (zs.length : Int) ++
             zs.flatMap WRITE_OID_FIELD, 0, g⟩)
    ∧ (∀ elems : List (Node × List Nat × Nat),
        (∀ e ∈ elems, _outNode g e.1 = .ok ⟨e.2.1, e.2.2, g⟩) →
        _outNode g (.list (NodeList.ofList (elems.map Prod.fst))) =
          .ok ⟨WRITE_NODE_TYPE T_List ++ WRITE_INT_FIELD (elems.length : Int) ++
               (elems.map fun e => e.2.1).flatten,
               (elems.map fun e => e.2.2).sum, g⟩) := by
  refine ⟨rfl, fun ys => rfl, fun zs => rfl, fun elems h => ?_⟩
  simp only [_outNode, outNodeList_elements g elems h, except_ok_bind, except_pure_ok,
    nodeListOfList_length, List.length_map]

/-- Witness for C3's generic-list clause at a concrete one-element list. -/
theorem claim_C3_list_encoding_witness :
    _outNode ⟨true, Node.nullp⟩
        (.list (NodeList.ofList (([(Node.nullp, bytesLE 2 0, 0)] :
            List (Node × List Nat × Nat)).map Prod.fst))) =
      .ok ⟨WRITE_NODE_TYPE T_List ++
           WRITE_INT_FIELD (([(Node.nullp, bytesLE 2 0, 0)] :
              List (Node × List Nat × Nat)).length : Int) ++
           (([(Node.nullp, bytesLE 2 0, 0)] :
              List (Node × List Nat × Nat)).map fun e => e.2.1).flatten,
           (([(Node.nullp, bytesLE 2 0, 0)] :
              List (Node × List Nat × Nat)).map fun e => e.2.2).sum,
           ⟨true, Node.nullp⟩⟩ :=
  (claim_C3_list_encoding ⟨true, Node.nullp⟩).2.2.2
    [(Node.nullp, bytesLE 2 0, 0)]
    (fun e he => by rw [List.mem_singleton.mp he]; rfl)

/-- **C4**: every successful encode's final 2 bytes are the sentinel
`(int16) 0xDEAD`, whatever the tree, and the returned length counts the
whole buffer including the sentinel. -/
theorem claim_C4_sentinel (g : Globals) (obj : Node) :
    ∀ res, nodeToBinaryStringFast g obj = .ok res →
      res.1.data.drop (res.1.data.length - 2) = bytesLE 2 0xDEAD ∧
      res.1.len = res.1.data.length := by
  intro res h
  simp only [nodeToBinaryStringFast] at h
  obtain ⟨⟨b, w, g'⟩, e1, h⟩ := except_bind_ok h
  cases h
  refine ⟨?_, rfl⟩
  have hl : (b ++ bytesLE 2 0xDEAD).length - 2 = b.length := by simp
  rw [hl]
  exact List.drop_left _ _

/-- Witness for C4 at the null root. -/
theorem claim_C4_sentinel_witness :
    ([0x00, 0x00, 0xAD, 0xDE] : List Nat).drop
        (([0x00, 0x00, 0xAD, 0xDE] : List Nat).length - 2) = bytesLE 2 0xDEAD ∧
    (4 : Nat) = ([0x00, 0x00, 0xAD, 0xDE] : List Nat).length :=
  claim_C4_sentinel ⟨true, Node.nullp⟩ .nullp
    (⟨[0x00, 0x00, 0xAD, 0xDE], 4⟩, 0, ⟨true, Node.nullp⟩) rfl

/-- **C5**: encoding a NULL root yields exactly 4 bytes — the 2-byte null
tag 0 followed by the 2-byte sentinel — and the returned length is 4. -/
theorem claim_C5_null_root (g : Globals) :
    nodeToBinaryStringFast g .nullp = .ok (⟨[0x00, 0x00, 0xAD, 0xDE], 4⟩, 0, g) := rfl

/-- **C6**: the mode-bracket guards.  Entering reduced mode fails its
assertions unless the switch is set and the table unset (so entering twice
fails); a successful entry clears the switch and installs the supplied
table; exiting fails when the switch is still set (already full mode); a
successful exit restores the defaults. -/
theorem claim_C6_mode_guards :
    (∀ (g : Globals) (rtable : Node),
        (g.print_variable_fields = false ∨ g.range_table ≠ Node.nullp) →
        outfast_workfile_mgr_init g rtable = none)
    ∧ (∀ rtable : Node,
        outfast_workfile_mgr_init ⟨true, Node.nullp⟩ rtable = some ⟨false, rtable⟩)
    ∧ (∀ (rtable rtable' : Node) (g' : Globals),
        outfast_workfile_mgr_init ⟨true, Node.nullp⟩ rtable = some g' →
        outfast_workfile_mgr_init g' rtable' = none)
    ∧ (∀ g : Globals, g.print_variable_fields = true → outfast_workfile_mgr_end g = none)
    ∧ (∀ g : Globals, g.print_variable_fields = false →
        outfast_workfile_mgr_end g = some ⟨true, Node.nullp⟩) := by
  refine ⟨?_, ?_, ?_, ?_, ?_⟩
  · rintro g rtable (h | h) <;> simp [outfast_workfile_mgr_init, h]
  · intro rtable; simp [outfast_workfile_mgr_init]
  · intro rtable rtable' g' h
    simp only [outfast_workfile_mgr_init] at h ⊢
    split at h
    · cases h
      simp
    · cases h
  · intro g h; simp [outfast_workfile_mgr_end, h]
  · intro g h; simp [outfast_workfile_mgr_end, h]

/-- Witness for C6 at concrete states. -/
theorem claim_C6_mode_guards_witness :
    outfast_workfile_mgr_init ⟨false, Node.nullp⟩ Node.nullp = none ∧
    outfast_workfile_mgr_init ⟨true, Node.nullp⟩ (Node.intList [7]) =
      some ⟨false, Node.intList [7]⟩ ∧
    outfast_workfile_mgr_init ⟨false, Node.intList [7]⟩ Node.nullp = none ∧
    outfast_workfile_mgr_end ⟨true, Node.nullp⟩ = none ∧
    outfast_workfile_mgr_end ⟨false, Node.intList [7]⟩ = some ⟨true, Node.nullp⟩ :=
  ⟨claim_C6_mode_guards.1 ⟨false, Node.nullp⟩ Node.nullp (Or.inl rfl),
   claim_C6_mode_guards.2.1 (Node.intList [7]),
   claim_C6_mode_guards.2.2.1 (Node.intList [7]) Node.nullp ⟨false, Node.intList [7]⟩
     (claim_C6_mode_guards.2.1 (Node.intList [7])),
   claim_C6_mode_guards.2.2.2.1 ⟨true, Node.nullp⟩ rfl,
   claim_C6_mode_guards.2.2.2.2 ⟨false, Node.intList [7]⟩ rfl⟩

/-- **C7**: a by-value `Datum` is appended as exactly its constant in-memory
width (the 8-byte `Datum` word); a by-reference `Datum` with a valid pointer
as an 8-byte (`Size`) length followed by exactly that many raw bytes; a
by-reference NULL pointer as a zero length alone. -/
theorem claim_C7_datum (typlen : Int) :
    (∀ (w : Nat) (d : Option (List Nat)),
        _outDatum ⟨w, d⟩ typlen true = bytesLE 8 (w % 2 ^ 64) ∧
        (_outDatum ⟨w, d⟩ typlen true).length = 8)
    ∧ (∀ (w : Nat) (bs : List Nat),
        _outDatum ⟨w, some bs⟩ typlen false = bytesLE 8 (bs.length % 2 ^ 64) ++ bs ∧
        (_outDatum ⟨w, some bs⟩ typlen false).length = 8 + bs.length)
    ∧ (∀ w : Nat, _outDatum ⟨w, none⟩ typlen false = bytesLE 8 0) :=
  ⟨fun w d => ⟨rfl, by simp [_outDatum]⟩,
   fun w bs => ⟨rfl, by simp [_outDatum]⟩,
   fun w => rfl⟩

/-- **C8**: a NULL string and an empty string both encode as the 4 zero
bytes of a zero length with no payload (indistinguishable on the wire); a
non-empty string of n bytes encodes as the 4-byte length n followed by
exactly those n bytes with no terminator. -/
theorem claim_C8_string_field :
    (WRITE_STRING_FIELD none = [0, 0, 0, 0])
    ∧ (WRITE_STRING_FIELD (some []) = [0, 0, 0, 0])
    ∧ (WRITE_STRING_FIELD none = WRITE_STRING_FIELD (some []))
    ∧ (∀ (c : Nat) (cs : List Nat),
        WRITE_STRING_FIELD (some (c :: cs)) =
          WRITE_INT_FIELD (((c :: cs).length : Nat) : Int) ++ (c :: cs)) := by
  refine ⟨rfl, rfl, rfl, fun c cs => ?_⟩
  simp [WRITE_STRING_FIELD]

/-- **C9**: a `Constraint` whose sub-kind reaches the switch's `default:`
is a non-fatal `elog(WARNING)` (one warning counted), the tag, `name`,
`conoid` and `contype` fields are still emitted, the sub-kind specific
fields are skipped, and the encode continues (`.ok`, no abort) — both at
`_outConstraint` and through the tree walker. -/
theorem claim_C9_constraint_warning (g : Globals) (name : Option (List Nat)) (conoid : Nat)
    (code : Nat) (keys options : Node) (indexspace : Option (List Nat)) (raw_expr : Node)
    (cooked_expr : Option (List Nat)) :
    _outConstraint g (.mk name conoid (.unlisted code) keys options indexspace raw_expr
        cooked_expr) =
      .ok ⟨WRITE_NODE_TYPE T_Constraint ++ WRITE_STRING_FIELD name ++
           WRITE_OID_FIELD conoid ++ WRITE_ENUM_FIELD (ConstrType.unlisted code).code, 1, g⟩
    ∧ _outNode g (.constraintNode (.mk name conoid (.unlisted code) keys options indexspace
        raw_expr cooked_expr)) =
      .ok ⟨WRITE_NODE_TYPE T_Constraint ++ WRITE_STRING_FIELD name ++
           WRITE_OID_FIELD conoid ++ WRITE_ENUM_FIELD (ConstrType.unlisted code).code, 1, g⟩ :=
  ⟨rfl, rfl⟩

/-- **C10**: one encode call never changes the two mode variables: a
successful `nodeToBinaryStringFast` returns `print_variable_fields` and
`range_table` exactly as it found them (only the `outfast_workfile_mgr`
bracket functions ever produce a different `Globals`). -/
theorem claim_C10_encode_frame (g : Globals) (obj : Node) :
    ∀ res, nodeToBinaryStringFast g obj = .ok res → res.2.2 = g := by
  intro res h
  simp only [nodeToBinaryStringFast] at h
  obtain ⟨⟨b, w, g'⟩, e1, h⟩ := except_bind_ok h
  cases h
  exact outNode_g_eq g obj ⟨b, w, g'⟩ e1

/-- Witness for C10 at the null root. -/
theorem claim_C10_encode_frame_witness :
    ((⟨[0x00, 0x00, 0xAD, 0xDE], 4⟩, 0, (⟨true, Node.nullp⟩ : Globals)) :
        BinaryString × Nat × Globals).2.2 = (⟨true, Node.nullp⟩ : Globals) :=
  claim_C10_encode_frame ⟨true, Node.nullp⟩ .nullp
    (⟨[0x00, 0x00, 0xAD, 0xDE], 4⟩, 0, ⟨true, Node.nullp⟩) rfl

end Outfast
